import Mathlib

/-!
# Flappy Snick: the frame simulation of `game.js`

A shallow embedding of the gameplay core of `src/game.js`: the geometry helper
`rectCircleCollide`, the globals (`bird`, `score`, `highScore`, `frame`,
`gameState`, the scroll offsets, `pipes`) and the functions `resetGame`,
`spawnPipe`, `gameOver`, `startGame`, `flap` and `update`.

Modelling choices.
* JavaScript numbers are IEEE doubles; they are modelled by exact rationals (`ℚ`), and
  counters by naturals. The two coincide as long as no operation rounds or overflows.
  `onGrid` marks the numbers (multiples of 1/4 of magnitude at most 2^20) on which that
  holds for `rectCircleCollide` and for the bird and pipe arithmetic of `update`; the
  theorems that compare the code with exact geometry assume it. `(80 / 2) * 0.6` is 24
  in doubles as it is in `ℚ`.
* `Math.random()` is an explicit argument `r` of every function that may call
  `spawnPipe`.
* The globals are one `State` record, passed and returned explicitly.
* `bird` starts as `null`; reading a field of `null` throws, which is the result
  `none` of `update` and `flap`.
* Drawing, DOM updates, `prompt` and the network calls of `gameOver` are not
  modelled; `gameOverCalls` counts how often `gameOver` ran.
-/

namespace FlappySnick

/-! ## Game constants (game.js lines 13-25, 63-64) -/

def WIDTH : ℚ := 400
def HEIGHT : ℚ := 600
def GROUND_HEIGHT : ℚ := 80
def BIRD_SIZE : ℚ := 80
def GRAVITY : ℚ := 1 / 2
def FLAP_STRENGTH : ℚ := -8
def PIPE_WIDTH : ℚ := 100
def PIPE_GAP : ℚ := 160
def PIPE_SPEED : ℚ := 5 / 2
def PIPE_INTERVAL : ℕ := 90
def BIRD_HITBOX_RATIO : ℚ := 3 / 5
def CLOUD_SPEED : ℚ := 3 / 10
def GROUND_SPEED : ℚ := PIPE_SPEED

/-! ## Geometry helper (game.js lines 30-41) -/

/-- The clamp `Math.max(lo, Math.min(c, lo + len))` of lines 32-33. -/
def closest (lo len c : ℚ) : ℚ := max lo (min c (lo + len))

/-- The quantity `distanceX * distanceX + distanceY * distanceY` of line 40. -/
def distanceSq (rectX rectY rectWidth rectHeight circleX circleY : ℚ) : ℚ :=
  let closestX := closest rectX rectWidth circleX
  let closestY := closest rectY rectHeight circleY
  let distanceX := circleX - closestX
  let distanceY := circleY - closestY
  distanceX * distanceX + distanceY * distanceY

/-- The function `rectCircleCollide` of game.js: the strict comparison of line 40. -/
def rectCircleCollide (rectX rectY rectWidth rectHeight circleX circleY circleRadius : ℚ) :
    Bool :=
  decide (distanceSq rectX rectY rectWidth rectHeight circleX circleY
    < circleRadius * circleRadius)

/-! ## Game state (game.js lines 53-67) -/

inductive GameState where
  | start
  | playing
  | gameover
deriving DecidableEq

structure Bird where
  x : ℚ
  y : ℚ
  vy : ℚ
  size : ℚ
deriving DecidableEq

structure Pipe where
  x : ℚ
  gapY : ℚ
deriving DecidableEq

structure State where
  bird : Option Bird
  score : ℕ
  highScore : ℕ
  frame : ℕ
  gameState : GameState
  cloudOffset : ℚ
  groundOffset : ℚ
  pipes : List Pipe
  gameOverCalls : ℕ
deriving DecidableEq

/-- The globals as the script leaves them before the first event (lines 54-67). -/
def init : State :=
  { bird := none, score := 0, highScore := 0, frame := 0, gameState := GameState.start,
    cloudOffset := 0, groundOffset := 0, pipes := [], gameOverCalls := 0 }

/-! ## Pipe functions, reset and game over -/

/-- The value `gapY` of `spawnPipe` (lines 370-372) for the random draw `r`. -/
def spawnGapY (r : ℚ) : ℚ :=
  let minGapY : ℚ := 60
  let maxGapY : ℚ := HEIGHT - PIPE_GAP - GROUND_HEIGHT - 60
  ((Rat.floor (r * (maxGapY - minGapY + 1)) : ℤ) : ℚ) + minGapY

/-- The function `spawnPipe` (lines 369-377): push one pipe at the right edge. -/
def spawnPipe (s : State) (r : ℚ) : State :=
  { s with pipes := s.pipes ++ [{ x := WIDTH, gapY := spawnGapY r }] }

/-- The function `resetGame` (lines 82-93). -/
def resetGame (s : State) (r : ℚ) : State :=
  spawnPipe
    { s with
      bird := some { x := 80, y := HEIGHT / 2, vy := 0, size := BIRD_SIZE },
      score := 0, frame := 0, pipes := [] } r

/-- The function `gameOver` (lines 347-360), reduced to its effect on the globals. -/
def gameOver (s : State) : State :=
  { s with gameState := GameState.gameover, gameOverCalls := s.gameOverCalls + 1 }

/-- The function `startGame` (lines 303-311). -/
def startGame (s : State) (r : ℚ) : State :=
  { resetGame s r with gameState := GameState.playing }

/-- The function `flap` (lines 295-301); `none` is the `TypeError` of `bird.vy` on `null`. -/
def flap (s : State) (r : ℚ) : Option State :=
  if s.gameState = GameState.playing then
    match s.bird with
    | none => none
    | some b => some { s with bird := some { b with vy := FLAP_STRENGTH } }
  else if s.gameState = GameState.start ∨ s.gameState = GameState.gameover then
    some (startGame s r)
  else some s

/-! ## The frame step `update` (game.js lines 230-278), in source order -/

/-- Lines 232-237: the frame counter and the cosmetic scroll offsets. -/
def scroll (s : State) : State :=
  let cloudOffset := s.cloudOffset + CLOUD_SPEED
  let groundOffset := s.groundOffset + GROUND_SPEED
  { s with
    frame := s.frame + 1,
    cloudOffset := if cloudOffset > WIDTH + 120 then 0 else cloudOffset,
    groundOffset := if groundOffset > 40 then 0 else groundOffset }

/-- Lines 239-240: `bird.vy += GRAVITY; bird.y += bird.vy`. -/
def gravity (b : Bird) : Bird :=
  let vy := b.vy + GRAVITY
  { b with vy := vy, y := b.y + vy }

/-- The expression `(bird.size / 2) * BIRD_HITBOX_RATIO` of lines 243 and 263. -/
def hitboxRadius (b : Bird) : ℚ := (b.size / 2) * BIRD_HITBOX_RATIO

/-- The condition of line 243 (ground or ceiling). -/
def outOfBounds (b : Bird) : Bool :=
  decide (b.y + hitboxRadius b > HEIGHT - GROUND_HEIGHT ∨ b.y - hitboxRadius b < 0)

/-- Lines 243-245: the bounds check calls `gameOver` and falls through. -/
def boundsCheck (s : State) (b : Bird) : State :=
  if outOfBounds b then gameOver s else s

/-- Lines 248-250: spawn on every `PIPE_INTERVAL`-th frame. -/
def spawnStep (s : State) (r : ℚ) : State :=
  if s.frame % PIPE_INTERVAL = 0 then spawnPipe s r else s

/-- Lines 251-253: every pipe moves left by `PIPE_SPEED`. -/
def advance (pipes : List Pipe) : List Pipe :=
  pipes.map fun pipe => { pipe with x := pipe.x - PIPE_SPEED }

/-- The condition `pipes.length && pipes[0].x + PIPE_WIDTH < 0` of line 255. -/
def frontOffScreen (pipes : List Pipe) : Bool :=
  match pipes with
  | [] => false
  | pipe :: _ => decide (pipe.x + PIPE_WIDTH < 0)

/-- Lines 255-260: shift the front pipe once off screen, count it, track the high score. -/
def recycle (s : State) : State :=
  if frontOffScreen s.pipes then
    let score := s.score + 1
    { s with
      pipes := s.pipes.tail, score := score,
      highScore := if score > s.highScore then score else s.highScore }
  else s

/-- Line 266: the test against the rectangle above the gap. -/
def hitsTop (pipe : Pipe) (b : Bird) : Bool :=
  rectCircleCollide pipe.x 0 PIPE_WIDTH pipe.gapY b.x b.y (hitboxRadius b)

/-- Lines 271-273: the test against the rectangle below the gap. -/
def hitsBottom (pipe : Pipe) (b : Bird) : Bool :=
  let bottomY := pipe.gapY + PIPE_GAP
  let bottomHeight := HEIGHT - GROUND_HEIGHT - bottomY
  rectCircleCollide pipe.x bottomY PIPE_WIDTH bottomHeight b.x b.y (hitboxRadius b)

/-- Lines 264-277: the callback of `pipes.forEach` for one pipe; its `return` only ends
the callback, so every pipe that is hit calls `gameOver` once. -/
def pipeCallback (b : Bird) (acc : State) (pipe : Pipe) : State :=
  if hitsTop pipe b then gameOver acc
  else if hitsBottom pipe b then gameOver acc
  else acc

/-- Lines 263-277: `pipes.forEach` over the pipes live after the recycle. -/
def collisions (s : State) (b : Bird) : State :=
  s.pipes.foldl (pipeCallback b) s

/-- The body of `update` after the guard, for a state whose bird is `b`. -/
def simulate (s : State) (b : Bird) (r : ℚ) : State :=
  let s1 := scroll s
  let b1 := gravity b
  let s2 := boundsCheck { s1 with bird := some b1 } b1
  let s3 := spawnStep s2 r
  let s4 := { s3 with pipes := advance s3.pipes }
  let s5 := recycle s4
  collisions s5 b1

/-- The pipes after the spawn check and the advance (lines 248-253) of a frame that
starts in `s`, before the recycle. -/
def advanced (s : State) (r : ℚ) : List Pipe :=
  advance (spawnStep (scroll s) r).pipes

/-- The function `update` (lines 230-278); `none` is the `TypeError` of `bird.vy` on
`null`. -/
def update (s : State) (r : ℚ) : Option State :=
  if s.gameState ≠ GameState.playing then some s
  else
    match s.bird with
    | none => none
    | some b => some (simulate s b r)

/-! ## Events and runs -/

/-- One event of the host: an activation (key, tap, click) or one animation frame, with
the value the random source would return during it. -/
inductive Input where
  | activate (r : ℚ)
  | tick (r : ℚ)
deriving DecidableEq

/-- One event applied to the globals. -/
def step (s : State) : Input → Option State
  | Input.activate r => flap s r
  | Input.tick r => update s r

/-- The state after a list of events, `none` once an event throws. -/
def run (s : State) : List Input → Option State
  | [] => some s
  | i :: rest =>
    match step s i with
    | none => none
    | some s1 => run s1 rest

/-- The states visited by a list of events, the first one included. -/
def trace (s : State) : List Input → Option (List State)
  | [] => some [s]
  | i :: rest =>
    match step s i with
    | none => none
    | some s1 => (trace s1 rest).map fun states => s :: states

/-- The states reachable from `init` by activations and frames. -/
inductive Reachable : State → Prop where
  | init : Reachable init
  | step (s s1 : State) (i : Input) : Reachable s → step s i = some s1 → Reachable s1

/-- Whether an event is an animation frame. -/
def Input.isTick : Input → Bool
  | Input.tick _ => true
  | Input.activate _ => false

/-- Whether the state is Playing after every frame of the list of events. -/
def stillPlaying (s : State) : List Input → Bool
  | [] => true
  | i :: rest =>
    match step s i with
    | none => false
    | some s1 =>
      (!i.isTick || decide (s1.gameState = GameState.playing)) && stillPlaying s1 rest

/-- One activation followed by `n` frames, every random draw being `0`. -/
def cycle (n : ℕ) : List Input := Input.activate 0 :: List.replicate n (Input.tick 0)

/-- The events `cycle n` for each `n` of the list, in order. -/
def cycles (ns : List ℕ) : List Input := ns.foldr (fun n rest => cycle n ++ rest) []

/-- Whether a number is a multiple of 1/4 of magnitude at most 2^20. Sums, differences
and products of a few such numbers, as `rectCircleCollide` and `update` form them, have
fewer than 53 significant bits, so double arithmetic computes them without rounding. -/
def onGrid (q : ℚ) : Bool := decide ((q * 4).den = 1 ∧ |q| ≤ 1048576)

/-- Whether the draw `r` lies in `[0, 1)` and the exact product `r * 241` of `spawnPipe`
stays 2^-40 below the next integer, so that the double product, which rounding moves by
at most 2^-46, has the same integer part. -/
def safeDraw (r : ℚ) : Bool :=
  decide (0 ≤ r ∧ r < 1 ∧ r * 241 - Rat.floor (r * 241) ≤ 1 - 1 / 1099511627776)

/-- Events that bring the bird under the first pipe with its hitbox touching the
rectangle above the gap: the first draw `115/128` gives `gapY = 276`, the bird falls
for 15 frames and then flaps every 31 frames. -/
def touchRun : List Input :=
  Input.activate (115 / 128) :: List.replicate 15 (Input.tick 0) ++ cycles [31, 31, 31, 31, 14]

/-- A Playing state with the bird, the pipes and the frame counter that `touchRun`
reaches: frame 153, one frame before the bird is at `(80, 300)` under the pipe at
`x = 15`. -/
def touching : State :=
  { bird := some { x := 80, y := 601 / 2, vy := -1, size := 80 },
    score := 0, highScore := 0, frame := 153, gameState := GameState.playing,
    cloudOffset := 459 / 10, groundOffset := 0,
    pipes := [{ x := 35 / 2, gapY := 276 }, { x := 240, gapY := 60 }],
    gameOverCalls := 0 }

/-- The invariant of the reachable states. -/
structure Inv (s : State) : Prop where
  bird : s.gameState = GameState.playing → ∃ b, s.bird = some b
  high : s.score ≤ s.highScore
  sorted : s.pipes.Pairwise (fun p q => p.x ≤ q.x)
  bound : ∀ p ∈ s.pipes, p.x ≤ WIDTH

/-- The shape of a session during its first `PIPE_INTERVAL` frames. -/
structure Early (k : ℕ) (s : State) : Prop where
  playing : s.gameState = GameState.playing
  bird : ∃ b, s.bird = some b
  frame : s.frame = k
  score : s.score = 0
  pipes : if k < PIPE_INTERVAL then ∃ g, s.pipes = [{ x := WIDTH - k * PIPE_SPEED, gapY := g }]
    else s.pipes.length = 2

/-! ## The stages of a frame, field by field -/

theorem foldl_pipeCallback_fields (b : Bird) (ps : List Pipe) (acc : State) :
    (ps.foldl (pipeCallback b) acc).pipes = acc.pipes ∧
    (ps.foldl (pipeCallback b) acc).score = acc.score ∧
    (ps.foldl (pipeCallback b) acc).highScore = acc.highScore ∧
    (ps.foldl (pipeCallback b) acc).frame = acc.frame ∧
    (ps.foldl (pipeCallback b) acc).bird = acc.bird := by
  induction ps generalizing acc with
  | nil => simp
  | cons p rest ih =>
    simp only [List.foldl_cons, pipeCallback]
    split_ifs
    · simpa [gameOver] using ih (gameOver acc)
    · simpa [gameOver] using ih (gameOver acc)
    · exact ih acc

theorem foldl_pipeCallback_gameState (b : Bird) (ps : List Pipe) (acc : State) :
    (ps.foldl (pipeCallback b) acc).gameState =
      if ∃ p ∈ ps, hitsTop p b = true ∨ hitsBottom p b = true then GameState.gameover
      else acc.gameState := by
  induction ps generalizing acc with
  | nil => simp
  | cons p rest ih =>
    simp only [List.foldl_cons, pipeCallback]
    split_ifs <;> rw [ih] <;> simp_all [gameOver]

theorem foldl_pipeCallback_calls (b : Bird) (ps : List Pipe) (acc : State) :
    (ps.foldl (pipeCallback b) acc).gameOverCalls =
      acc.gameOverCalls + ps.countP (fun p => hitsTop p b || hitsBottom p b) := by
  induction ps generalizing acc with
  | nil => simp
  | cons p rest ih =>
    simp only [List.foldl_cons, pipeCallback]
    split_ifs with h1 h2 <;> rw [ih] <;> simp [gameOver, List.countP_cons, h1, *] <;> omega

theorem boundsCheck_fields (s : State) (b : Bird) :
    (boundsCheck s b).pipes = s.pipes ∧ (boundsCheck s b).score = s.score ∧
    (boundsCheck s b).highScore = s.highScore ∧ (boundsCheck s b).frame = s.frame ∧
    (boundsCheck s b).bird = s.bird := by
  unfold boundsCheck gameOver
  split_ifs <;> simp

theorem spawnStep_fields (s : State) (r : ℚ) :
    (spawnStep s r).score = s.score ∧ (spawnStep s r).highScore = s.highScore ∧
    (spawnStep s r).frame = s.frame ∧ (spawnStep s r).bird = s.bird ∧
    (spawnStep s r).gameState = s.gameState ∧
    (spawnStep s r).gameOverCalls = s.gameOverCalls := by
  unfold spawnStep spawnPipe
  split_ifs <;> simp

theorem spawnStep_pipes_congr (s t : State) (r : ℚ) (hf : s.frame = t.frame)
    (hp : s.pipes = t.pipes) : (spawnStep s r).pipes = (spawnStep t r).pipes := by
  unfold spawnStep spawnPipe
  rw [hf]
  split_ifs <;> simp [hp]

theorem recycle_fields (s : State) :
    (recycle s).pipes = (if frontOffScreen s.pipes then s.pipes.tail else s.pipes) ∧
    (recycle s).score = s.score + (if frontOffScreen s.pipes then 1 else 0) ∧
    (recycle s).highScore =
      (if frontOffScreen s.pipes then max s.highScore (s.score + 1) else s.highScore) ∧
    (recycle s).frame = s.frame ∧ (recycle s).bird = s.bird ∧
    (recycle s).gameState = s.gameState ∧ (recycle s).gameOverCalls = s.gameOverCalls := by
  unfold recycle
  by_cases h : frontOffScreen s.pipes = true
  · simp only [h, if_true, and_true, true_and]
    by_cases h2 : s.score + 1 > s.highScore
    · rw [if_pos h2, max_eq_right (le_of_lt h2)]
    · rw [if_neg h2, max_eq_left (not_lt.mp h2)]
  · simp [h]

/-- The fields of the state at the end of a frame, from those at its start. -/
theorem simulate_fields (s : State) (b : Bird) (r : ℚ) :
    (simulate s b r).pipes =
      (if frontOffScreen (advanced s r) then (advanced s r).tail else advanced s r) ∧
    (simulate s b r).score = s.score + (if frontOffScreen (advanced s r) then 1 else 0) ∧
    (simulate s b r).highScore =
      (if frontOffScreen (advanced s r) then max s.highScore (s.score + 1)
        else s.highScore) ∧
    (simulate s b r).frame = s.frame + 1 ∧
    (simulate s b r).bird = some (gravity b) := by
  have hadv : advance (spawnStep (boundsCheck { scroll s with bird := some (gravity b) }
      (gravity b)) r).pipes = advanced s r := by
    unfold advanced
    rw [spawnStep_pipes_congr _ (scroll s) r
      (by rw [(boundsCheck_fields _ _).2.2.2.1]) (by rw [(boundsCheck_fields _ _).1])]
  simp only [simulate, collisions]
  obtain ⟨h1, h2, h3, h4, h5⟩ := foldl_pipeCallback_fields (gravity b)
    (recycle { spawnStep (boundsCheck { scroll s with bird := some (gravity b) }
      (gravity b)) r with pipes := advance (spawnStep (boundsCheck
        { scroll s with bird := some (gravity b) } (gravity b)) r).pipes }).pipes
    (recycle { spawnStep (boundsCheck { scroll s with bird := some (gravity b) }
      (gravity b)) r with pipes := advance (spawnStep (boundsCheck
        { scroll s with bird := some (gravity b) } (gravity b)) r).pipes })
  rw [h1, h2, h3, h4, h5]
  obtain ⟨r1, r2, r3, r4, r5, -, -⟩ := recycle_fields
    { spawnStep (boundsCheck { scroll s with bird := some (gravity b) }
      (gravity b)) r with pipes := advance (spawnStep (boundsCheck
        { scroll s with bird := some (gravity b) } (gravity b)) r).pipes }
  rw [r1, r2, r3, r4, r5]
  simp only [hadv]
  obtain ⟨p1, p2, p3, p4, -, -⟩ := spawnStep_fields (boundsCheck
        { scroll s with bird := some (gravity b) } (gravity b)) r
  obtain ⟨q1, q2, q3, q4, q5⟩ := boundsCheck_fields
        { scroll s with bird := some (gravity b) } (gravity b)
  rw [p1, p2, p3, p4, q2, q3, q4, q5]
  simp [scroll]

theorem boundsCheck_gameState (s : State) (b : Bird) :
    (boundsCheck s b).gameState =
      (if outOfBounds b = true then GameState.gameover else s.gameState) ∧
    (boundsCheck s b).gameOverCalls =
      s.gameOverCalls + (if outOfBounds b = true then 1 else 0) := by
  unfold boundsCheck gameOver
  split_ifs <;> simp

/-- The game state and the number of `gameOver` calls at the end of a frame. -/
theorem simulate_gameState (s : State) (b : Bird) (r : ℚ) :
    (simulate s b r).gameState =
      (if ∃ p ∈ (simulate s b r).pipes,
          hitsTop p (gravity b) = true ∨ hitsBottom p (gravity b) = true
        then GameState.gameover
        else if outOfBounds (gravity b) = true then GameState.gameover else s.gameState) ∧
    (simulate s b r).gameOverCalls =
      s.gameOverCalls + (if outOfBounds (gravity b) = true then 1 else 0) +
        (simulate s b r).pipes.countP
          (fun p => hitsTop p (gravity b) || hitsBottom p (gravity b)) := by
  have hp : (simulate s b r).pipes =
      (recycle { spawnStep (boundsCheck { scroll s with bird := some (gravity b) }
        (gravity b)) r with pipes := advance (spawnStep (boundsCheck
          { scroll s with bird := some (gravity b) } (gravity b)) r).pipes }).pipes := by
    simp only [simulate, collisions]
    rw [(foldl_pipeCallback_fields _ _ _).1]
  rw [hp]
  simp only [simulate, collisions]
  rw [foldl_pipeCallback_gameState, foldl_pipeCallback_calls]
  obtain ⟨-, -, -, -, -, r6, r7⟩ := recycle_fields
    { spawnStep (boundsCheck { scroll s with bird := some (gravity b) }
      (gravity b)) r with pipes := advance (spawnStep (boundsCheck
        { scroll s with bird := some (gravity b) } (gravity b)) r).pipes }
  rw [r6, r7]
  obtain ⟨-, -, -, -, p5, p6⟩ := spawnStep_fields (boundsCheck
        { scroll s with bird := some (gravity b) } (gravity b)) r
  obtain ⟨q1, q2⟩ := boundsCheck_gameState
        { scroll s with bird := some (gravity b) } (gravity b)
  simp only [p5, p6, q1, q2]
  simp [scroll]

theorem update_playing (s : State) (b : Bird) (r : ℚ)
    (hp : s.gameState = GameState.playing) (hb : s.bird = some b) :
    update s r = some (simulate s b r) := by
  simp [update, hp, hb]

theorem update_not_playing (s : State) (r : ℚ)
    (hp : s.gameState ≠ GameState.playing) : update s r = some s := by
  simp [update, hp]

/-! ## Geometry: the clamp and the collision test -/

theorem closest_mem (lo len c : ℚ) (hlen : 0 ≤ len) :
    lo ≤ closest lo len c ∧ closest lo len c ≤ lo + len := by
  unfold closest
  exact ⟨le_max_left _ _, max_le (by linarith) (min_le_right _ _)⟩

theorem closest_nearest (lo len c p : ℚ) (h1 : lo ≤ p) (h2 : p ≤ lo + len) :
    (c - closest lo len c) * (c - closest lo len c) ≤ (c - p) * (c - p) := by
  unfold closest
  rcases le_total c (lo + len) with hc | hc
  · rw [min_eq_left hc]
    rcases le_total lo c with hl | hl
    · rw [max_eq_right hl]; nlinarith [mul_self_nonneg (c - p)]
    · rw [max_eq_left hl]; nlinarith
  · rw [min_eq_right hc, max_eq_right (by linarith)]; nlinarith

theorem closest_of_neg (lo len c : ℚ) (hlen : len < 0) : closest lo len c = lo := by
  unfold closest
  exact max_eq_left (le_trans (min_le_right _ _) (by linarith))

theorem sqrt_lt_radius_iff (d circleRadius : ℚ) (hd : 0 ≤ d) (hr : 0 ≤ circleRadius) :
    Real.sqrt (d : ℝ) < (circleRadius : ℝ) ↔ d < circleRadius * circleRadius := by
  have hd1 : (0 : ℝ) ≤ (d : ℝ) := by exact_mod_cast hd
  have hr1 : (0 : ℝ) ≤ (circleRadius : ℝ) := by exact_mod_cast hr
  rw [Real.sqrt_lt hd1 hr1]
  constructor
  · intro h
    have : (d : ℝ) < ((circleRadius * circleRadius : ℚ) : ℝ) := by push_cast; nlinarith
    exact_mod_cast this
  · intro h
    have : (d : ℝ) < ((circleRadius * circleRadius : ℚ) : ℝ) := by exact_mod_cast h
    push_cast at this; nlinarith

/-- In the rational model, for a rectangle of non-negative width and height and a radius
`≥ 0`, the test is true iff some point of the closed rectangle lies at distance strictly
below the radius from the centre. -/
theorem rectCircleCollide_iff_exists_near
    (rectX rectY rectWidth rectHeight circleX circleY circleRadius : ℚ)
    (hw : 0 ≤ rectWidth) (hh : 0 ≤ rectHeight) (hr : 0 ≤ circleRadius) :
    rectCircleCollide rectX rectY rectWidth rectHeight circleX circleY circleRadius = true ↔
      ∃ px py : ℚ, rectX ≤ px ∧ px ≤ rectX + rectWidth ∧
        rectY ≤ py ∧ py ≤ rectY + rectHeight ∧
        Real.sqrt (((circleX - px) * (circleX - px) + (circleY - py) * (circleY - py) : ℚ) : ℝ)
          < (circleRadius : ℝ) := by
  simp only [rectCircleCollide, decide_eq_true_eq, distanceSq]
  constructor
  · intro h
    refine ⟨closest rectX rectWidth circleX, closest rectY rectHeight circleY,
      (closest_mem _ _ _ hw).1, (closest_mem _ _ _ hw).2,
      (closest_mem _ _ _ hh).1, (closest_mem _ _ _ hh).2, ?_⟩
    exact (sqrt_lt_radius_iff _ _
      (add_nonneg (mul_self_nonneg _) (mul_self_nonneg _)) hr).2 h
  · rintro ⟨px, py, h1, h2, h3, h4, h5⟩
    have h6 := (sqrt_lt_radius_iff _ _
      (add_nonneg (mul_self_nonneg _) (mul_self_nonneg _)) hr).1 h5
    have hx := closest_nearest rectX rectWidth circleX px h1 h2
    have hy := closest_nearest rectY rectHeight circleY py h3 h4
    linarith

/-- The same in squared form, which needs no sign of the radius. -/
theorem rectCircleCollide_iff_exists_sq
    (rectX rectY rectWidth rectHeight circleX circleY circleRadius : ℚ)
    (hw : 0 ≤ rectWidth) (hh : 0 ≤ rectHeight) :
    rectCircleCollide rectX rectY rectWidth rectHeight circleX circleY circleRadius = true ↔
      ∃ px py : ℚ, rectX ≤ px ∧ px ≤ rectX + rectWidth ∧
        rectY ≤ py ∧ py ≤ rectY + rectHeight ∧
        (circleX - px) * (circleX - px) + (circleY - py) * (circleY - py)
          < circleRadius * circleRadius := by
  simp only [rectCircleCollide, decide_eq_true_eq, distanceSq]
  constructor
  · intro h
    exact ⟨closest rectX rectWidth circleX, closest rectY rectHeight circleY,
      (closest_mem _ _ _ hw).1, (closest_mem _ _ _ hw).2,
      (closest_mem _ _ _ hh).1, (closest_mem _ _ _ hh).2, h⟩
  · rintro ⟨px, py, h1, h2, h3, h4, h5⟩
    have hx := closest_nearest rectX rectWidth circleX px h1 h2
    have hy := closest_nearest rectY rectHeight circleY py h3 h4
    linarith

/-- In the rational model a negative width collapses the clamped x to `rectX` and a
negative height collapses the clamped y to `rectY`. -/
theorem rectCircleCollide_of_negative
    (rectX rectY rectWidth rectHeight circleX circleY circleRadius : ℚ)
    (hneg : rectWidth < 0 ∨ rectHeight < 0) :
    rectCircleCollide rectX rectY rectWidth rectHeight circleX circleY circleRadius = true ↔
      (circleX - (if rectWidth < 0 then rectX else closest rectX rectWidth circleX)) *
        (circleX - (if rectWidth < 0 then rectX else closest rectX rectWidth circleX)) +
      (circleY - (if rectHeight < 0 then rectY else closest rectY rectHeight circleY)) *
        (circleY - (if rectHeight < 0 then rectY else closest rectY rectHeight circleY))
        < circleRadius * circleRadius := by
  simp only [rectCircleCollide, decide_eq_true_eq, distanceSq]
  by_cases hw : rectWidth < 0 <;> by_cases hh : rectHeight < 0
  · rw [if_pos hw, if_pos hh, closest_of_neg _ _ _ hw, closest_of_neg _ _ _ hh]
  · rw [if_pos hw, if_neg hh, closest_of_neg _ _ _ hw]
  · rw [if_neg hw, if_pos hh, closest_of_neg _ _ _ hh]
  · rcases hneg with h | h
    · exact absurd h hw
    · exact absurd h hh

/-- C1, as the code has it: for inputs on the grid where its double arithmetic is exact,
a rectangle of non-negative width and height and a radius `≥ 0`, `rectCircleCollide`
returns true iff some point of the closed rectangle lies at distance strictly below the
radius from the circle centre (the minimum distance is `<` the radius), equivalently iff
the squared distance from the centre to its clamped closest point is `<` the squared
radius. -/
theorem rectCircleCollide_iff_dist_lt
    (rectX rectY rectWidth rectHeight circleX circleY circleRadius : ℚ)
    (hgrid : onGrid rectX = true ∧ onGrid rectY = true ∧ onGrid rectWidth = true ∧
      onGrid rectHeight = true ∧ onGrid circleX = true ∧ onGrid circleY = true ∧
      onGrid circleRadius = true)
    (hw : 0 ≤ rectWidth) (hh : 0 ≤ rectHeight) (hr : 0 ≤ circleRadius) :
    (rectCircleCollide rectX rectY rectWidth rectHeight circleX circleY circleRadius = true ↔
      ∃ px py : ℚ, rectX ≤ px ∧ px ≤ rectX + rectWidth ∧
        rectY ≤ py ∧ py ≤ rectY + rectHeight ∧
        Real.sqrt (((circleX - px) * (circleX - px) + (circleY - py) * (circleY - py) : ℚ) : ℝ)
          < (circleRadius : ℝ)) ∧
    (rectCircleCollide rectX rectY rectWidth rectHeight circleX circleY circleRadius = true ↔
      distanceSq rectX rectY rectWidth rectHeight circleX circleY
        < circleRadius * circleRadius) := by
  have _ := hgrid
  exact ⟨rectCircleCollide_iff_exists_near _ _ _ _ _ _ _ hw hh hr,
    by simp [rectCircleCollide]⟩

/-- C1 at the rectangle `[0,10] × [0,10]` and the circle of centre `(15, 5)` and
radius `5`: the rectangle point `(10, 5)` is at distance exactly the radius. -/
theorem rectCircleCollide_iff_dist_lt_witness :
    (onGrid 0 = true ∧ onGrid 0 = true ∧ onGrid 10 = true ∧ onGrid 10 = true ∧
      onGrid 15 = true ∧ onGrid 5 = true ∧ onGrid 5 = true) ∧
    (rectCircleCollide 0 0 10 10 15 5 5 = true ↔
      ∃ px py : ℚ, (0 : ℚ) ≤ px ∧ px ≤ 0 + 10 ∧ (0 : ℚ) ≤ py ∧ py ≤ 0 + 10 ∧
        Real.sqrt (((15 - px) * (15 - px) + (5 - py) * (5 - py) : ℚ) : ℝ) < ((5 : ℚ) : ℝ)) ∧
    (rectCircleCollide 0 0 10 10 15 5 5 = true ↔ distanceSq 0 0 10 10 15 5 < 5 * 5) :=
  ⟨by decide!,
    rectCircleCollide_iff_dist_lt 0 0 10 10 15 5 5 (by decide!)
      (by norm_num) (by norm_num) (by norm_num)⟩

/-- C1 as stated fails when the circle touches the rectangle: for the rectangle
`[0,10] × [0,10]`, centre `(15, 5)` and radius `5`, the point `(10, 5)` of the rectangle
is at squared distance `25 ≤ 5 * 5`, yet `rectCircleCollide` returns false. -/
theorem rectCircleCollide_tangent_false :
    ¬ (rectCircleCollide 0 0 10 10 15 5 5 = true ↔
      ∃ px py : ℚ, (0 : ℚ) ≤ px ∧ px ≤ 0 + 10 ∧ (0 : ℚ) ≤ py ∧ py ≤ 0 + 10 ∧
        (15 - px) * (15 - px) + (5 - py) * (5 - py) ≤ 5 * 5) := by
  intro h
  have hfalse : rectCircleCollide 0 0 10 10 15 5 5 = false := by decide!
  have htrue : rectCircleCollide 0 0 10 10 15 5 5 = true :=
    h.2 ⟨10, 5, by norm_num, by norm_num, by norm_num, by norm_num, by norm_num⟩
  rw [hfalse] at htrue
  exact Bool.noConfusion htrue

/-- C10, as the code has it: for inputs on the grid where its double arithmetic is exact,
a negative width collapses the clamped x to `rectX` and a negative height collapses the
clamped y to `rectY`; the rectangle is not treated as empty, and the result is true
exactly when the squared distance from the centre to the clamped point is below the
squared radius. -/
theorem rectCircleCollide_negative_size
    (rectX rectY rectWidth rectHeight circleX circleY circleRadius : ℚ)
    (hgrid : onGrid rectX = true ∧ onGrid rectY = true ∧ onGrid rectWidth = true ∧
      onGrid rectHeight = true ∧ onGrid circleX = true ∧ onGrid circleY = true ∧
      onGrid circleRadius = true)
    (hneg : rectWidth < 0 ∨ rectHeight < 0) :
    rectCircleCollide rectX rectY rectWidth rectHeight circleX circleY circleRadius = true ↔
      (circleX - (if rectWidth < 0 then rectX else closest rectX rectWidth circleX)) *
        (circleX - (if rectWidth < 0 then rectX else closest rectX rectWidth circleX)) +
      (circleY - (if rectHeight < 0 then rectY else closest rectY rectHeight circleY)) *
        (circleY - (if rectHeight < 0 then rectY else closest rectY rectHeight circleY))
        < circleRadius * circleRadius := by
  have _ := hgrid
  exact rectCircleCollide_of_negative _ _ _ _ _ _ _ hneg

/-- C10 at the rectangle of origin `(0, 0)`, width `-1`, height `5` and the circle of
centre `(0, 0)` and radius `1`. -/
theorem rectCircleCollide_negative_size_witness :
    (onGrid 0 = true ∧ onGrid 0 = true ∧ onGrid (-1) = true ∧ onGrid 5 = true ∧
      onGrid 0 = true ∧ onGrid 0 = true ∧ onGrid 1 = true) ∧
    ((-1 : ℚ) < 0 ∨ (5 : ℚ) < 0) ∧
    (rectCircleCollide 0 0 (-1) 5 0 0 1 = true ↔
      ((0 : ℚ) - (if (-1 : ℚ) < 0 then 0 else closest 0 (-1) 0)) *
        (0 - (if (-1 : ℚ) < 0 then 0 else closest 0 (-1) 0)) +
      (0 - (if (5 : ℚ) < 0 then 0 else closest 0 5 0)) *
        (0 - (if (5 : ℚ) < 0 then 0 else closest 0 5 0)) < 1 * 1) :=
  ⟨by decide!, Or.inl (by norm_num),
    rectCircleCollide_negative_size 0 0 (-1) 5 0 0 1 (by decide!) (Or.inl (by norm_num))⟩

/-- C10 as stated fails: with width `-1` the circle of centre `(0, 0)` and radius `1`
is reported as colliding with the rectangle of origin `(0, 0)` and height `5`. -/
theorem rectCircleCollide_negative_width_true :
    rectCircleCollide 0 0 (-1) 5 0 0 1 = true := by decide!

/-! ## Spawning, restart and recycle -/

theorem spawnGapY_range (r : ℚ) (h0 : 0 ≤ r) (h1 : r < 1) :
    ∃ k : ℤ, spawnGapY r = (k : ℚ) ∧ 60 ≤ k ∧ k ≤ 300 := by
  refine ⟨Rat.floor (r * (HEIGHT - PIPE_GAP - GROUND_HEIGHT - 60 - 60 + 1)) + 60, ?_, ?_, ?_⟩
  · simp [spawnGapY]
  · have : (0 : ℤ) ≤ Rat.floor (r * (HEIGHT - PIPE_GAP - GROUND_HEIGHT - 60 - 60 + 1)) := by
      rw [Rat.le_floor]
      norm_num [HEIGHT, PIPE_GAP, GROUND_HEIGHT]
      linarith
    linarith
  · have : ¬ ((241 : ℤ) ≤ Rat.floor (r * (HEIGHT - PIPE_GAP - GROUND_HEIGHT - 60 - 60 + 1))) := by
      rw [Rat.le_floor]
      norm_num [HEIGHT, PIPE_GAP, GROUND_HEIGHT]
      linarith
    omega

/-- C7: for a random draw `r` in `[0, 1)`, `spawnPipe` appends exactly one pipe, at
`x = WIDTH = 400`, to the unchanged existing pipes; its `gapY` is an integer with
`60 ≤ gapY ≤ 300 = HEIGHT - PIPE_GAP - GROUND_HEIGHT - 60`, so the rectangle above the
gap and the rectangle below it are both at least 60 high. -/
theorem spawnPipe_appends_in_range (s : State) (r : ℚ) (h0 : 0 ≤ r) (h1 : r < 1) :
    (spawnPipe s r).pipes = s.pipes ++ [{ x := WIDTH, gapY := spawnGapY r }] ∧
    WIDTH = 400 ∧
    (∃ k : ℤ, spawnGapY r = (k : ℚ) ∧ 60 ≤ k ∧ k ≤ 300) ∧
    (300 : ℚ) = HEIGHT - PIPE_GAP - GROUND_HEIGHT - 60 ∧
    60 ≤ spawnGapY r ∧
    60 ≤ HEIGHT - GROUND_HEIGHT - spawnGapY r - PIPE_GAP := by
  obtain ⟨k, hk, hlo, hhi⟩ := spawnGapY_range r h0 h1
  have hlo1 : (60 : ℚ) ≤ (k : ℚ) := by exact_mod_cast hlo
  have hhi1 : (k : ℚ) ≤ 300 := by exact_mod_cast hhi
  refine ⟨rfl, rfl, ⟨k, hk, hlo, hhi⟩, by norm_num [HEIGHT, PIPE_GAP, GROUND_HEIGHT], ?_, ?_⟩
  · rw [hk]; exact hlo1
  · rw [hk]; norm_num [HEIGHT, PIPE_GAP, GROUND_HEIGHT]; linarith

/-- C7 at the draw `r = 1/2`, which gives `gapY = 180`. -/
theorem spawnPipe_appends_in_range_witness :
    (0 : ℚ) ≤ 1 / 2 ∧ (1 / 2 : ℚ) < 1 ∧
    (spawnPipe init (1 / 2)).pipes = init.pipes ++ [{ x := WIDTH, gapY := spawnGapY (1 / 2) }] ∧
    spawnGapY (1 / 2) = 180 :=
  ⟨by norm_num, by norm_num,
    (spawnPipe_appends_in_range init (1 / 2) (by norm_num) (by norm_num)).1, by decide!⟩

/-- C4: from any Start or GameOver state one activation gives a Playing state with score
0, frame counter 0, the bird at `x = 80`, `y = HEIGHT / 2 = 300`, `vy = 0`, exactly one
pipe, at `x = WIDTH = 400`, and the high score it had. -/
theorem flap_restarts (s : State) (r : ℚ)
    (h : s.gameState = GameState.start ∨ s.gameState = GameState.gameover) :
    ∃ s1, flap s r = some s1 ∧ s1.gameState = GameState.playing ∧ s1.score = 0 ∧
      s1.frame = 0 ∧ s1.bird = some { x := 80, y := 300, vy := 0, size := 80 } ∧
      HEIGHT / 2 = 300 ∧
      s1.pipes = [{ x := 400, gapY := spawnGapY r }] ∧ WIDTH = 400 ∧
      s1.highScore = s.highScore := by
  have hnp : s.gameState ≠ GameState.playing := by
    rcases h with h | h <;> rw [h] <;> decide
  refine ⟨startGame s r, by simp [flap, hnp, h], rfl, rfl, rfl, ?_, ?_, ?_, rfl, rfl⟩
  · simp [startGame, resetGame, spawnPipe, HEIGHT, BIRD_SIZE]; norm_num
  · norm_num [HEIGHT]
  · simp [startGame, resetGame, spawnPipe, WIDTH]

/-- C4 at the initial state. -/
theorem flap_restarts_witness :
    (init.gameState = GameState.start ∨ init.gameState = GameState.gameover) ∧
    ∃ s1, flap init 0 = some s1 ∧ s1.gameState = GameState.playing ∧ s1.score = 0 ∧
      s1.frame = 0 ∧ s1.bird = some { x := 80, y := 300, vy := 0, size := 80 } ∧
      HEIGHT / 2 = 300 ∧
      s1.pipes = [{ x := 400, gapY := spawnGapY 0 }] ∧ WIDTH = 400 ∧
      s1.highScore = init.highScore :=
  ⟨Or.inl rfl, flap_restarts init 0 (Or.inl rfl)⟩

/-- C5: one `update` from a Playing state leaves the spawned-and-advanced pipes with at
most the first one removed and nothing else removed or reordered; the first one is
removed exactly when its `x + PIPE_WIDTH < 0` after advancing; the score grows by
exactly 1 when it is removed and is unchanged otherwise, and an activation while
Playing leaves the score alone, so the score never decreases within a session. -/
theorem update_recycle (s : State) (b : Bird) (r : ℚ)
    (hp : s.gameState = GameState.playing) (hb : s.bird = some b) :
    (∃ s1, update s r = some s1 ∧
      (s1.pipes = advanced s r ∨ ∃ p, advanced s r = p :: s1.pipes) ∧
      ((∃ p rest, advanced s r = p :: rest ∧ p.x + PIPE_WIDTH < 0) →
        s1.pipes = (advanced s r).tail ∧ s1.score = s.score + 1) ∧
      (¬ (∃ p rest, advanced s r = p :: rest ∧ p.x + PIPE_WIDTH < 0) →
        s1.pipes = advanced s r ∧ s1.score = s.score) ∧
      s.score ≤ s1.score) ∧
    (∃ s2, flap s r = some s2 ∧ s2.score = s.score) := by
  have hfront : frontOffScreen (advanced s r) = true ↔
      ∃ p rest, advanced s r = p :: rest ∧ p.x + PIPE_WIDTH < 0 := by
    cases hadv : advanced s r with
    | nil => simp [frontOffScreen]
    | cons p rest => simp [frontOffScreen]
  obtain ⟨h1, h2, -⟩ := simulate_fields s b r
  refine ⟨⟨simulate s b r, update_playing s b r hp hb, ?_, ?_, ?_, ?_⟩,
    ⟨{ s with bird := some { b with vy := FLAP_STRENGTH } }, by simp [flap, hp, hb], rfl⟩⟩
  · rw [h1]
    by_cases hf : frontOffScreen (advanced s r) = true
    · obtain ⟨p, rest, hpr, -⟩ := hfront.1 hf
      right
      exact ⟨p, by rw [if_pos hf, hpr]; rfl⟩
    · left; rw [if_neg hf]
  · intro h
    rw [h1, h2, if_pos (hfront.2 h), if_pos (hfront.2 h)]
    exact ⟨rfl, rfl⟩
  · intro h
    have hf : ¬ frontOffScreen (advanced s r) = true := fun hf => h (hfront.1 hf)
    rw [h1, h2, if_neg hf, if_neg hf]
    exact ⟨rfl, rfl⟩
  · rw [h2]; exact Nat.le_add_right _ _

/-- C5 at the state right after the first activation. -/
theorem update_recycle_witness :
    (startGame init 0).gameState = GameState.playing ∧
    (startGame init 0).bird = some { x := 80, y := HEIGHT / 2, vy := 0, size := BIRD_SIZE } ∧
    ∃ s2, flap (startGame init 0) 0 = some s2 ∧ s2.score = (startGame init 0).score :=
  ⟨rfl, rfl, (update_recycle (startGame init 0)
    { x := 80, y := HEIGHT / 2, vy := 0, size := BIRD_SIZE } 0 rfl rfl).2⟩

/-! ## Invariants of the reachable states -/

theorem advanced_eq (s : State) (r : ℚ) :
    advanced s r = advance (if (s.frame + 1) % PIPE_INTERVAL = 0
      then s.pipes ++ [{ x := WIDTH, gapY := spawnGapY r }] else s.pipes) := by
  unfold advanced spawnStep spawnPipe scroll
  dsimp only
  split_ifs <;> rfl

theorem inv_init : Inv init :=
  ⟨fun h => absurd h (by decide), le_refl _, List.Pairwise.nil, fun p hp => by cases hp⟩

theorem inv_startGame (s : State) (r : ℚ) : Inv (startGame s r) := by
  refine ⟨fun _ => ⟨_, rfl⟩, ?_, ?_, ?_⟩
  · show 0 ≤ s.highScore
    exact Nat.zero_le _
  · show List.Pairwise _ ([] ++ [_])
    simp
  · intro p hp
    have : p ∈ ([] : List Pipe) ++ [{ x := WIDTH, gapY := spawnGapY r }] := hp
    simp at this
    rw [this]

theorem advanced_sorted (s : State) (r : ℚ) (h : Inv s) :
    (advanced s r).Pairwise (fun p q => p.x ≤ q.x) ∧ ∀ p ∈ advanced s r, p.x ≤ WIDTH := by
  rw [advanced_eq]
  have hs : (if (s.frame + 1) % PIPE_INTERVAL = 0
      then s.pipes ++ [{ x := WIDTH, gapY := spawnGapY r }] else s.pipes).Pairwise
        (fun p q => p.x ≤ q.x) ∧
      ∀ p ∈ (if (s.frame + 1) % PIPE_INTERVAL = 0
        then s.pipes ++ [{ x := WIDTH, gapY := spawnGapY r }] else s.pipes), p.x ≤ WIDTH := by
    split_ifs
    · refine ⟨?_, ?_⟩
      · rw [List.pairwise_append]
        refine ⟨h.sorted, by simp, ?_⟩
        intro p hp q hq
        simp at hq
        rw [hq]
        exact h.bound p hp
      · intro p hp
        rw [List.mem_append] at hp
        rcases hp with hp | hp
        · exact h.bound p hp
        · simp at hp; rw [hp]
    · exact ⟨h.sorted, h.bound⟩
  unfold advance
  refine ⟨?_, ?_⟩
  · rw [List.pairwise_map]
    exact hs.1.imp (fun {p q} hpq => by show p.x - PIPE_SPEED ≤ q.x - PIPE_SPEED; linarith)
  · intro p hp
    rw [List.mem_map] at hp
    obtain ⟨q, hq, rfl⟩ := hp
    have := hs.2 q hq
    show q.x - PIPE_SPEED ≤ WIDTH
    have : (0 : ℚ) ≤ PIPE_SPEED := by norm_num [PIPE_SPEED]
    linarith

theorem inv_simulate (s : State) (b : Bird) (r : ℚ) (h : Inv s) : Inv (simulate s b r) := by
  obtain ⟨h1, h2, h3, -, h5⟩ := simulate_fields s b r
  obtain ⟨hs, hb⟩ := advanced_sorted s r h
  refine ⟨fun _ => ⟨_, h5⟩, ?_, ?_, ?_⟩
  · rw [h2, h3]
    split_ifs
    · exact le_max_right _ _
    · exact h.high
  · rw [h1]
    split_ifs
    · exact hs.sublist (List.tail_sublist _)
    · exact hs
  · rw [h1]
    split_ifs
    · exact fun p hp => hb p (List.mem_of_mem_tail hp)
    · exact hb

theorem inv_step (s s1 : State) (i : Input) (h : Inv s) (hs : step s i = some s1) :
    Inv s1 := by
  cases i with
  | activate r =>
    simp only [step, flap] at hs
    split_ifs at hs with hp hq
    · obtain ⟨b, hb⟩ := h.bird hp
      rw [hb] at hs
      simp only [Option.some.injEq] at hs
      subst hs
      exact ⟨fun _ => ⟨_, rfl⟩, h.high, h.sorted, h.bound⟩
    · simp only [Option.some.injEq] at hs
      subst hs
      exact inv_startGame s r
    · simp only [Option.some.injEq] at hs
      subst hs
      exact h
  | tick r =>
    simp only [step] at hs
    by_cases hp : s.gameState = GameState.playing
    · obtain ⟨b, hb⟩ := h.bird hp
      rw [update_playing s b r hp hb] at hs
      simp only [Option.some.injEq] at hs
      subst hs
      exact inv_simulate s b r h
    · rw [update_not_playing s r hp] at hs
      simp only [Option.some.injEq] at hs
      subst hs
      exact h

theorem step_total (s : State) (i : Input) (h : Inv s) : ∃ s1, step s i = some s1 := by
  cases i with
  | activate r =>
    simp only [step, flap]
    split_ifs with hp hq
    · obtain ⟨b, hb⟩ := h.bird hp
      rw [hb]
      exact ⟨_, rfl⟩
    · exact ⟨_, rfl⟩
    · exact ⟨_, rfl⟩
  | tick r =>
    simp only [step]
    by_cases hp : s.gameState = GameState.playing
    · obtain ⟨b, hb⟩ := h.bird hp
      exact ⟨_, update_playing s b r hp hb⟩
    · exact ⟨_, update_not_playing s r hp⟩

theorem inv_of_reachable (s : State) (h : Reachable s) : Inv s := by
  induction h with
  | init => exact inv_init
  | step s s1 i _ hs ih => exact inv_step s s1 i ih hs

theorem reachable_of_run (s t : State) (inputs : List Input) (h : Reachable s)
    (hr : run s inputs = some t) : Reachable t := by
  induction inputs generalizing s with
  | nil =>
    simp only [run, Option.some.injEq] at hr
    subst hr
    exact h
  | cons i rest ih =>
    simp only [run] at hr
    cases hs : step s i with
    | none => rw [hs] at hr; cases hr
    | some s1 =>
      rw [hs] at hr
      exact ih s1 (Reachable.step s s1 i h hs) hr

theorem advance_append (ps qs : List Pipe) : advance (ps ++ qs) = advance ps ++ advance qs := by
  simp [advance]

theorem frontOffScreen_fresh (r : ℚ) :
    frontOffScreen (advance [{ x := WIDTH, gapY := spawnGapY r }]) = false := by
  simp [frontOffScreen, advance, WIDTH, PIPE_SPEED, PIPE_WIDTH]
  norm_num

theorem simulate_pipes_shape (s : State) (b : Bird) (r : ℚ) :
    ∃ d : ℕ, ∃ extra : List Pipe, d ≤ 1 ∧ extra.length ≤ 1 ∧
      (simulate s b r).pipes = advance (s.pipes.drop d) ++ extra := by
  obtain ⟨h1, -⟩ := simulate_fields s b r
  have hadv : ∃ ext : List Pipe, ext.length ≤ 1 ∧ advanced s r = advance s.pipes ++ advance ext ∧
      frontOffScreen (advance ext) = false := by
    rw [advanced_eq]
    split_ifs
    · exact ⟨[{ x := WIDTH, gapY := spawnGapY r }], by simp, advance_append _ _,
        frontOffScreen_fresh r⟩
    · exact ⟨[], by simp, by simp [advance], by simp [advance, frontOffScreen]⟩
  obtain ⟨ext, hlen, hadv, hext⟩ := hadv
  have hlen2 : (advance ext).length ≤ 1 := by simpa [advance] using hlen
  by_cases hf : frontOffScreen (advanced s r) = true
  · rw [h1, if_pos hf]
    cases hps : s.pipes with
    | nil =>
      rw [hps] at hadv
      rw [hadv] at hf
      simp only [advance, List.map_nil, List.nil_append] at hf
      simp only [advance] at hext
      rw [hext] at hf
      cases hf
    | cons q qs =>
      refine ⟨1, advance ext, le_refl _, hlen2, ?_⟩
      rw [hadv, hps]
      simp [advance]
  · rw [h1, if_neg hf]
    exact ⟨0, advance ext, Nat.zero_le _, hlen2, by simpa using hadv⟩

/-- C8, as the code has it: in every reachable state the pipes are ordered by ascending
`x`; an `update` from a Playing state keeps every pipe but at most the front one, in
order, each with its `x` lowered by exactly `PIPE_SPEED` (`advance`), followed by at
most one new pipe, and the result is ordered again; an `update` from a Start or
GameOver state changes nothing. -/
theorem pipes_sorted_advance (s : State) (h : Reachable s) :
    s.pipes.Pairwise (fun p q => p.x ≤ q.x) ∧
    (s.gameState = GameState.playing → ∀ r : ℚ, ∃ s1, ∃ d : ℕ, ∃ extra : List Pipe,
      update s r = some s1 ∧ d ≤ 1 ∧ extra.length ≤ 1 ∧
      s1.pipes = advance (s.pipes.drop d) ++ extra ∧
      s1.pipes.Pairwise (fun p q => p.x ≤ q.x)) ∧
    (s.gameState ≠ GameState.playing → ∀ r : ℚ, update s r = some s) := by
  have hinv := inv_of_reachable s h
  refine ⟨hinv.sorted, ?_, fun hp r => update_not_playing s r hp⟩
  intro hp r
  obtain ⟨b, hb⟩ := hinv.bird hp
  obtain ⟨d, extra, hd, he, hpipes⟩ := simulate_pipes_shape s b r
  exact ⟨simulate s b r, d, extra, update_playing s b r hp hb, hd, he, hpipes,
    (inv_simulate s b r hinv).sorted⟩

theorem step_highScore (s s1 : State) (i : Input) (h : Inv s) (hs : step s i = some s1) :
    s1.highScore = max s.highScore s1.score := by
  cases i with
  | activate r =>
    simp only [step, flap] at hs
    split_ifs at hs with hp hq
    · obtain ⟨b, hb⟩ := h.bird hp
      rw [hb] at hs
      simp only [Option.some.injEq] at hs
      subst hs
      exact (max_eq_left h.high).symm
    · simp only [Option.some.injEq] at hs
      subst hs
      show s.highScore = max s.highScore 0
      simp
    · simp only [Option.some.injEq] at hs
      subst hs
      exact (max_eq_left h.high).symm
  | tick r =>
    simp only [step] at hs
    by_cases hp : s.gameState = GameState.playing
    · obtain ⟨b, hb⟩ := h.bird hp
      rw [update_playing s b r hp hb] at hs
      simp only [Option.some.injEq] at hs
      subst hs
      obtain ⟨-, h2, h3, -⟩ := simulate_fields s b r
      rw [h2, h3]
      split_ifs
      · rfl
      · simpa using (max_eq_left h.high).symm
    · rw [update_not_playing s r hp] at hs
      simp only [Option.some.injEq] at hs
      subst hs
      exact (max_eq_left h.high).symm

theorem trace_highScore (inputs : List Input) (s : State) (h : Inv s) :
    ∃ states last, trace s inputs = some states ∧ states.head? = some s ∧
      states.getLast? = some last ∧
      last.highScore = max s.highScore ((states.map State.score).foldr max 0) ∧
      (∀ t ∈ states, t.score ≤ t.highScore) ∧
      states.Chain' (fun a b => a.highScore ≤ b.highScore) := by
  induction inputs generalizing s with
  | nil =>
    refine ⟨[s], s, rfl, rfl, rfl, ?_, ?_, List.chain'_singleton s⟩
    · simp [h.high]
    · intro t ht
      simp at ht
      rw [ht]
      exact h.high
  | cons i rest ih =>
    obtain ⟨s1, hs1⟩ := step_total s i h
    have h1 := inv_step s s1 i h hs1
    obtain ⟨states, last, htr, hhead, hlast, hmax, hall, hchain⟩ := ih s1 h1
    have hhs := step_highScore s s1 i h hs1
    obtain ⟨tl, rfl⟩ : ∃ tl, states = s1 :: tl := by
      cases states with
      | nil => simp at hhead
      | cons a tl =>
        simp only [List.head?_cons, Option.some.injEq] at hhead
        exact ⟨tl, by rw [hhead]⟩
    refine ⟨s :: s1 :: tl, last, ?_, rfl, ?_, ?_, ?_, ?_⟩
    · simp [trace, hs1, htr]
    · rw [List.getLast?_cons_cons]; exact hlast
    · rw [hmax, hhs]
      simp only [List.map_cons, List.foldr_cons]
      have := h.high
      omega
    · intro t ht
      rcases List.mem_cons.1 ht with rfl | ht
      · exact h.high
      · exact hall t ht
    · refine List.Chain'.cons ?_ hchain
      rw [hhs]
      exact le_max_left _ _

/-- C6: every list of activations and frames runs from the initial state without a
throw, and along the states it visits the high score of the last one is the maximum of
the scores of all of them, every state has `score ≤ highScore`, and the high score
never decreases from one state to the next. -/
theorem highScore_eq_max_score (inputs : List Input) :
    ∃ states last, trace init inputs = some states ∧ states.getLast? = some last ∧
      last.highScore = (states.map State.score).foldr max 0 ∧
      (∀ t ∈ states, t.score ≤ t.highScore) ∧
      states.Chain' (fun a b => a.highScore ≤ b.highScore) := by
  obtain ⟨states, last, htr, -, hlast, hmax, hall, hchain⟩ := trace_highScore inputs init inv_init
  refine ⟨states, last, htr, hlast, ?_, hall, hchain⟩
  rw [hmax]
  show max 0 _ = _
  simp

/-! ## The first pipe interval -/

theorem early_startGame (r : ℚ) : Early 0 (startGame init r) := by
  refine ⟨rfl, ⟨_, rfl⟩, rfl, rfl, ?_⟩
  rw [if_pos (by decide)]
  exact ⟨spawnGapY r, by simp [startGame, resetGame, spawnPipe]⟩

theorem early_flap (k : ℕ) (s : State) (r : ℚ) (h : Early k s) :
    ∃ s1, flap s r = some s1 ∧ Early k s1 := by
  obtain ⟨b, hb⟩ := h.bird
  refine ⟨{ s with bird := some { b with vy := FLAP_STRENGTH } }, by simp [flap, h.playing, hb],
    h.playing, ⟨_, rfl⟩, h.frame, h.score, h.pipes⟩

theorem early_simulate (k : ℕ) (s : State) (b : Bird) (r : ℚ) (h : Early k s)
    (hk : k < PIPE_INTERVAL) (hp : (simulate s b r).gameState = GameState.playing) :
    Early (k + 1) (simulate s b r) := by
  obtain ⟨h1, h2, -, h4, h5⟩ := simulate_fields s b r
  have hpipes := h.pipes
  rw [if_pos hk] at hpipes
  obtain ⟨g, hg⟩ := hpipes
  have hk1 : (k : ℚ) + 1 ≤ 90 := by
    have : k + 1 ≤ 90 := hk
    exact_mod_cast this
  have hfront : frontOffScreen (advanced s r) = false := by
    rw [advanced_eq, hg]
    split_ifs <;>
    · simp only [advance, List.map_cons, List.cons_append, List.nil_append, frontOffScreen,
        decide_eq_false_iff_not, not_lt]
      norm_num [WIDTH, PIPE_SPEED, PIPE_WIDTH]
      linarith
  refine ⟨hp, ⟨_, h5⟩, by rw [h4, h.frame], by rw [h2, hfront, h.score]; rfl, ?_⟩
  rw [h1, hfront, advanced_eq, hg, h.frame]
  simp only [Bool.false_eq_true, if_false]
  by_cases hlast : k + 1 < PIPE_INTERVAL
  · have hmod : ¬ (k + 1) % PIPE_INTERVAL = 0 := by
      rw [Nat.mod_eq_of_lt hlast]; omega
    rw [if_pos hlast, if_neg hmod]
    refine ⟨g, ?_⟩
    simp only [advance, List.map_cons, List.map_nil]
    congr 2
    push_cast
    ring
  · have hmod : (k + 1) % PIPE_INTERVAL = 0 := by
      have : k + 1 = PIPE_INTERVAL := by
        have : k < PIPE_INTERVAL := hk
        omega
      rw [this, Nat.mod_self]
    rw [if_neg hlast, if_pos hmod]
    simp [advance]

theorem early_run (inputs : List Input) (k : ℕ) (s : State) (h : Early k s)
    (hn : k + inputs.countP Input.isTick = PIPE_INTERVAL)
    (hal : stillPlaying s inputs = true) :
    ∃ t, run s inputs = some t ∧ Early PIPE_INTERVAL t := by
  induction inputs generalizing k s with
  | nil =>
    simp only [List.countP_nil, Nat.add_zero] at hn
    subst hn
    exact ⟨s, rfl, h⟩
  | cons i rest ih =>
    cases i with
    | activate r =>
      obtain ⟨s1, hs1, he⟩ := early_flap k s r h
      have hstep : step s (Input.activate r) = some s1 := hs1
      simp only [stillPlaying, hstep, Input.isTick, Bool.not_false, Bool.true_or,
        Bool.true_and] at hal
      have hn1 : k + rest.countP Input.isTick = PIPE_INTERVAL := by
        simpa [List.countP_cons, Input.isTick] using hn
      obtain ⟨t, ht, het⟩ := ih k s1 he hn1 hal
      exact ⟨t, by simp only [run, hstep]; exact ht, het⟩
    | tick r =>
      obtain ⟨b, hb⟩ := h.bird
      have hstep : step s (Input.tick r) = some (simulate s b r) :=
        update_playing s b r h.playing hb
      simp only [stillPlaying, hstep, Input.isTick, Bool.not_true, Bool.false_or,
        Bool.and_eq_true, decide_eq_true_eq] at hal
      have hn1 : (k + 1) + rest.countP Input.isTick = PIPE_INTERVAL := by
        simp only [List.countP_cons, Input.isTick, if_true] at hn
        omega
      have hk : k < PIPE_INTERVAL := by omega
      obtain ⟨t, ht, het⟩ := ih (k + 1) (simulate s b r)
        (early_simulate k s b r h hk hal.1) hn1 hal.2
      exact ⟨t, by simp only [run, hstep]; exact ht, het⟩

/-- C9: from the initial state one activation enters Playing with score 0 and exactly
one pipe, at `x = WIDTH`; then every list of events holding exactly `PIPE_INTERVAL`
frames and any activations, after each frame of which the state is still Playing, ends
with exactly two pipes and score 0. -/
theorem second_pipe_after_interval (r0 : ℚ) (inputs : List Input)
    (hn : inputs.countP Input.isTick = PIPE_INTERVAL)
    (hal : stillPlaying (startGame init r0) inputs = true) :
    flap init r0 = some (startGame init r0) ∧
    (startGame init r0).gameState = GameState.playing ∧
    (startGame init r0).score = 0 ∧
    (startGame init r0).pipes = [{ x := WIDTH, gapY := spawnGapY r0 }] ∧
    ∃ t, run (startGame init r0) inputs = some t ∧ t.pipes.length = 2 ∧ t.score = 0 := by
  refine ⟨rfl, rfl, rfl, by simp [startGame, resetGame, spawnPipe], ?_⟩
  obtain ⟨t, ht, het⟩ := early_run inputs 0 (startGame init r0) (early_startGame r0)
    (by rw [Nat.zero_add]; exact hn) hal
  exact ⟨t, ht, by simpa using het.pipes, het.score⟩

/-- C9 at three rounds of one activation and 30 frames. -/
theorem second_pipe_after_interval_witness :
    (cycle 30 ++ cycle 30 ++ cycle 30).countP Input.isTick = PIPE_INTERVAL ∧
    stillPlaying (startGame init 0) (cycle 30 ++ cycle 30 ++ cycle 30) = true ∧
    ∃ t, run (startGame init 0) (cycle 30 ++ cycle 30 ++ cycle 30) = some t ∧
      t.pipes.length = 2 ∧ t.score = 0 :=
  ⟨by decide!, by decide!,
    (second_pipe_after_interval 0 (cycle 30 ++ cycle 30 ++ cycle 30) (by decide!)
      (by decide!)).2.2.2.2⟩

/-! ## Frames that end the session -/

/-- C8 at the state right after the first activation. -/
theorem pipes_sorted_advance_witness :
    Reachable (startGame init 0) ∧
    (startGame init 0).pipes.Pairwise (fun p q => p.x ≤ q.x) :=
  ⟨Reachable.step init (startGame init 0) (Input.activate 0) Reachable.init rfl,
    (pipes_sorted_advance (startGame init 0)
      (Reachable.step init (startGame init 0) (Input.activate 0) Reachable.init rfl)).1⟩

/-- C8 as stated fails in a reachable GameOver state: after one activation and 28 frames
without a flap the bird has hit the ground, the pipe is at `x = 330`, and a further
`update` leaves it at `x = 330` instead of lowering it by `PIPE_SPEED`. -/
theorem update_frozen_after_gameover :
    (run init (cycle 28)).map (fun s => (s.gameState, s.pipes)) =
      some (GameState.gameover, [{ x := 330, gapY := 60 }]) ∧
    ((run init (cycle 28)).bind (fun s => update s 0)).map (fun s => s.pipes) =
      some [{ x := 330, gapY := 60 }] := by
  constructor <;> decide!

/-- C2 on two reachable Playing states whose bird leaves the field on the next frame.
After `cycles [0, 28, 20, 31, 1, 30, 25, 30, 20, 5, 10]` (frame 200, score 0, pipes at
`x = -100, 245/2, 695/2`) the next `update` ends in GameOver after one `gameOver` call,
and still advances the pipes, shifts the front one and raises the score and the high
score to 1. After `cycles [0, 15, 2, 31, 20, 28, 10, 3, 9]` (frame 118) the next
`update` calls `gameOver` twice, once for the ceiling and once for the pipe. -/
theorem update_out_of_bounds_falls_through :
    (run init (cycles [0, 28, 20, 31, 1, 30, 25, 30, 20, 5, 10])).map
        (fun s => (s.gameState, s.bird.map (fun b => outOfBounds (gravity b)),
          s.gameOverCalls)) =
      some (GameState.playing, some true, 0) ∧
    (run init (cycles [0, 28, 20, 31, 1, 30, 25, 30, 20, 5, 10])).map
        (fun s => (s.score, s.highScore, s.pipes.map Pipe.x)) =
      some (0, 0, [-100, 245 / 2, 695 / 2]) ∧
    ((run init (cycles [0, 28, 20, 31, 1, 30, 25, 30, 20, 5, 10])).bind
        (fun s => update s 0)).map (fun s => (s.gameState, s.gameOverCalls)) =
      some (GameState.gameover, 1) ∧
    ((run init (cycles [0, 28, 20, 31, 1, 30, 25, 30, 20, 5, 10])).bind
        (fun s => update s 0)).map (fun s => (s.score, s.highScore, s.pipes.map Pipe.x)) =
      some (1, 1, [120, 345]) ∧
    (run init (cycles [0, 15, 2, 31, 20, 28, 10, 3, 9])).map
        (fun s => (s.gameState, s.bird.map (fun b => outOfBounds (gravity b)),
          s.gameOverCalls)) =
      some (GameState.playing, some true, 0) ∧
    ((run init (cycles [0, 15, 2, 31, 20, 28, 10, 3, 9])).bind
        (fun s => update s 0)).map (fun s => (s.gameState, s.gameOverCalls)) =
      some (GameState.gameover, 2) := by
  refine ⟨?_, ?_, ?_, ?_, ?_, ?_⟩ <;> decide!

/-! ## The state machine -/

theorem advance_gapY (ps : List Pipe) (p : Pipe) (hp : p ∈ advance ps) :
    ∃ q ∈ ps, p.gapY = q.gapY ∧ p.x = q.x - PIPE_SPEED := by
  unfold advance at hp
  rw [List.mem_map] at hp
  obtain ⟨q, hq, rfl⟩ := hp
  exact ⟨q, hq, rfl, rfl⟩

theorem simulate_gapY_bounds (s : State) (b : Bird) (r : ℚ)
    (hpipes : ∀ p ∈ s.pipes, 0 ≤ p.gapY ∧ p.gapY + PIPE_GAP ≤ HEIGHT - GROUND_HEIGHT)
    (hr0 : 0 ≤ r) (hr1 : r < 1) :
    ∀ p ∈ (simulate s b r).pipes, 0 ≤ p.gapY ∧ p.gapY + PIPE_GAP ≤ HEIGHT - GROUND_HEIGHT := by
  intro p hp
  have hadv : p ∈ advanced s r := by
    rw [(simulate_fields s b r).1] at hp
    split_ifs at hp
    · exact List.mem_of_mem_tail hp
    · exact hp
  rw [advanced_eq] at hadv
  obtain ⟨q, hq, hg, -⟩ := advance_gapY _ p hadv
  rw [hg]
  have hnew : (0 : ℚ) ≤ spawnGapY r ∧ spawnGapY r + PIPE_GAP ≤ HEIGHT - GROUND_HEIGHT := by
    obtain ⟨k, hk, hlo, hhi⟩ := spawnGapY_range r hr0 hr1
    have hlo1 : (60 : ℚ) ≤ (k : ℚ) := by exact_mod_cast hlo
    have hhi1 : (k : ℚ) ≤ 300 := by exact_mod_cast hhi
    rw [hk]
    constructor
    · linarith
    · norm_num [HEIGHT, PIPE_GAP, GROUND_HEIGHT]; linarith
  split_ifs at hq
  · rw [List.mem_append] at hq
    rcases hq with hq | hq
    · exact hpipes q hq
    · simp only [List.mem_singleton] at hq
      rw [hq]
      exact hnew
  · exact hpipes q hq

/-- C3, as the code has it: from a Playing state whose bird has the size `BIRD_SIZE`,
with bird and pipes on the grid where the double arithmetic is exact, every gap inside
the field and a draw in `[0, 1)` whose product keeps its integer part in doubles, an
activation leaves the state Playing, and `update`
ends in GameOver iff the bird is out of bounds after the gravity step or some point of
the rectangle above the gap `[0, gapY]` or of the rectangle below it
`[gapY + PIPE_GAP, HEIGHT - GROUND_HEIGHT]` of a pipe live after this frame's spawn,
advance and recycle lies at distance strictly below the hitbox radius 24 from the bird's
centre; otherwise the state is still Playing. -/
theorem playing_exit_iff_terminal (s : State) (b : Bird) (r : ℚ)
    (hp : s.gameState = GameState.playing) (hb : s.bird = some b)
    (hsize : b.size = BIRD_SIZE)
    (hgrid : onGrid b.x = true ∧ onGrid b.y = true ∧ onGrid b.vy = true)
    (hpipes : ∀ p ∈ s.pipes, onGrid p.x = true ∧ onGrid p.gapY = true ∧
      0 ≤ p.gapY ∧ p.gapY + PIPE_GAP ≤ HEIGHT - GROUND_HEIGHT)
    (hr : safeDraw r = true) :
    (∃ s1, flap s r = some s1 ∧ s1.gameState = GameState.playing) ∧
    (∃ s1, update s r = some s1 ∧
      s1.pipes = (if frontOffScreen (advanced s r) then (advanced s r).tail
        else advanced s r) ∧
      s1.bird = some (gravity b) ∧ (gravity b).x = b.x ∧
      (gravity b).y = b.y + (b.vy + GRAVITY) ∧ hitboxRadius (gravity b) = 24 ∧
      (s1.gameState = GameState.gameover ↔
        ((gravity b).y + 24 > HEIGHT - GROUND_HEIGHT ∨ (gravity b).y - 24 < 0) ∨
        ∃ p ∈ s1.pipes,
          (∃ px py : ℚ, p.x ≤ px ∧ px ≤ p.x + PIPE_WIDTH ∧ 0 ≤ py ∧ py ≤ p.gapY ∧
            ((gravity b).x - px) * ((gravity b).x - px) +
              ((gravity b).y - py) * ((gravity b).y - py) < 24 * 24) ∨
          (∃ px py : ℚ, p.x ≤ px ∧ px ≤ p.x + PIPE_WIDTH ∧
            p.gapY + PIPE_GAP ≤ py ∧ py ≤ HEIGHT - GROUND_HEIGHT ∧
            ((gravity b).x - px) * ((gravity b).x - px) +
              ((gravity b).y - py) * ((gravity b).y - py) < 24 * 24)) ∧
      (s1.gameState ≠ GameState.gameover → s1.gameState = GameState.playing)) := by
  have _ := hgrid
  have hr0 : 0 ≤ r := by
    simp only [safeDraw, decide_eq_true_eq] at hr
    exact hr.1
  have hr1 : r < 1 := by
    simp only [safeDraw, decide_eq_true_eq] at hr
    exact hr.2.1
  have hrad : hitboxRadius (gravity b) = 24 := by
    simp only [hitboxRadius, gravity, hsize, BIRD_SIZE, BIRD_HITBOX_RATIO]
    norm_num
  have hwidth : (0 : ℚ) ≤ PIPE_WIDTH := by norm_num [PIPE_WIDTH]
  have hbounds := simulate_gapY_bounds s b r (fun p hp => (hpipes p hp).2.2) hr0 hr1
  have hoob : outOfBounds (gravity b) = true ↔
      ((gravity b).y + 24 > HEIGHT - GROUND_HEIGHT ∨ (gravity b).y - 24 < 0) := by
    simp only [outOfBounds, decide_eq_true_eq, hrad]
  have htop : ∀ p ∈ (simulate s b r).pipes, (hitsTop p (gravity b) = true ↔
      ∃ px py : ℚ, p.x ≤ px ∧ px ≤ p.x + PIPE_WIDTH ∧ 0 ≤ py ∧ py ≤ p.gapY ∧
        ((gravity b).x - px) * ((gravity b).x - px) +
          ((gravity b).y - py) * ((gravity b).y - py) < 24 * 24) := by
    intro p hp
    unfold hitsTop
    rw [rectCircleCollide_iff_exists_sq _ _ _ _ _ _ _ hwidth (hbounds p hp).1, hrad]
    simp only [zero_add]
  have hbot : ∀ p ∈ (simulate s b r).pipes, (hitsBottom p (gravity b) = true ↔
      ∃ px py : ℚ, p.x ≤ px ∧ px ≤ p.x + PIPE_WIDTH ∧
        p.gapY + PIPE_GAP ≤ py ∧ py ≤ HEIGHT - GROUND_HEIGHT ∧
        ((gravity b).x - px) * ((gravity b).x - px) +
          ((gravity b).y - py) * ((gravity b).y - py) < 24 * 24) := by
    intro p hp
    unfold hitsBottom
    dsimp only
    rw [rectCircleCollide_iff_exists_sq _ _ _ _ _ _ _ hwidth
      (by linarith [(hbounds p hp).2]), hrad]
    have he : p.gapY + PIPE_GAP + (HEIGHT - GROUND_HEIGHT - (p.gapY + PIPE_GAP)) =
        HEIGHT - GROUND_HEIGHT := by ring
    rw [he]
  have hhit : (∃ p ∈ (simulate s b r).pipes,
        hitsTop p (gravity b) = true ∨ hitsBottom p (gravity b) = true) ↔
      ∃ p ∈ (simulate s b r).pipes,
        (∃ px py : ℚ, p.x ≤ px ∧ px ≤ p.x + PIPE_WIDTH ∧ 0 ≤ py ∧ py ≤ p.gapY ∧
          ((gravity b).x - px) * ((gravity b).x - px) +
            ((gravity b).y - py) * ((gravity b).y - py) < 24 * 24) ∨
        (∃ px py : ℚ, p.x ≤ px ∧ px ≤ p.x + PIPE_WIDTH ∧
          p.gapY + PIPE_GAP ≤ py ∧ py ≤ HEIGHT - GROUND_HEIGHT ∧
          ((gravity b).x - px) * ((gravity b).x - px) +
            ((gravity b).y - py) * ((gravity b).y - py) < 24 * 24) := by
    constructor
    · rintro ⟨p, hp, h⟩
      exact ⟨p, hp, h.imp (htop p hp).1 (hbot p hp).1⟩
    · rintro ⟨p, hp, h⟩
      exact ⟨p, hp, h.imp (htop p hp).2 (hbot p hp).2⟩
  refine ⟨⟨{ s with bird := some { b with vy := FLAP_STRENGTH } },
    by simp [flap, hp, hb], hp⟩, simulate s b r, update_playing s b r hp hb,
    (simulate_fields s b r).1, (simulate_fields s b r).2.2.2.2, rfl, rfl, hrad, ?_, ?_⟩
  · rw [← hoob, ← hhit, (simulate_gameState s b r).1]
    split_ifs with h1 h2
    · exact ⟨fun _ => Or.inr h1, fun _ => rfl⟩
    · exact ⟨fun _ => Or.inl h2, fun _ => rfl⟩
    · rw [hp]
      exact ⟨fun h => absurd h (by decide), fun h => h.elim (fun h => absurd h h2)
        (fun h => absurd h h1)⟩
  · rw [(simulate_gameState s b r).1]
    split_ifs with h1 h2
    · exact fun h => absurd rfl h
    · exact fun h => absurd rfl h
    · exact fun _ => hp

/-- C3 at the reachable state `touching`, whose next frame has the bird touch a pipe. -/
theorem playing_exit_iff_terminal_witness :
    (touching.gameState = GameState.playing ∧
      touching.bird = some { x := 80, y := 601 / 2, vy := -1, size := 80 } ∧
      (80 : ℚ) = BIRD_SIZE) ∧
    ∃ s1, update touching 0 = some s1 ∧
      (s1.gameState = GameState.gameover ↔
        ((gravity { x := 80, y := 601 / 2, vy := -1, size := 80 }).y + 24
            > HEIGHT - GROUND_HEIGHT ∨
          (gravity { x := 80, y := 601 / 2, vy := -1, size := 80 }).y - 24 < 0) ∨
        ∃ p ∈ s1.pipes,
          (∃ px py : ℚ, p.x ≤ px ∧ px ≤ p.x + PIPE_WIDTH ∧ 0 ≤ py ∧ py ≤ p.gapY ∧
            ((gravity { x := 80, y := 601 / 2, vy := -1, size := 80 }).x - px) *
                ((gravity { x := 80, y := 601 / 2, vy := -1, size := 80 }).x - px) +
              ((gravity { x := 80, y := 601 / 2, vy := -1, size := 80 }).y - py) *
                ((gravity { x := 80, y := 601 / 2, vy := -1, size := 80 }).y - py)
              < 24 * 24) ∨
          (∃ px py : ℚ, p.x ≤ px ∧ px ≤ p.x + PIPE_WIDTH ∧
            p.gapY + PIPE_GAP ≤ py ∧ py ≤ HEIGHT - GROUND_HEIGHT ∧
            ((gravity { x := 80, y := 601 / 2, vy := -1, size := 80 }).x - px) *
                ((gravity { x := 80, y := 601 / 2, vy := -1, size := 80 }).x - px) +
              ((gravity { x := 80, y := 601 / 2, vy := -1, size := 80 }).y - py) *
                ((gravity { x := 80, y := 601 / 2, vy := -1, size := 80 }).y - py)
              < 24 * 24)) := by
  obtain ⟨-, s1, h1, -, -, -, -, -, h2, -⟩ := playing_exit_iff_terminal touching
    { x := 80, y := 601 / 2, vy := -1, size := 80 } 0 rfl rfl rfl
    ⟨by decide!, by decide!, by decide!⟩
    (by
      intro p hp
      simp only [touching, List.mem_cons, List.mem_singleton, List.not_mem_nil,
        or_false] at hp
      rcases hp with rfl | rfl
      · exact ⟨by decide!, by decide!, by norm_num,
          by norm_num [PIPE_GAP, HEIGHT, GROUND_HEIGHT]⟩
      · exact ⟨by decide!, by decide!, by norm_num,
          by norm_num [PIPE_GAP, HEIGHT, GROUND_HEIGHT]⟩)
    (by decide!)
  exact ⟨⟨rfl, rfl, rfl⟩, s1, h1, h2⟩

/-- C3 as stated fails when the circle touches a rectangle: `touchRun` reaches a Playing
state at frame 153 with the bird and the pipes of `touching`; after the next `update`
the bird is at `(80, 300)` and in bounds, the first pipe is at `x = 15` with
`gapY = 276`, and the point `(80, 276)` of its rectangle above the gap is at distance
exactly the radius 24 from the bird's centre, so the circle meets the rectangle; yet
the state is still Playing. -/
theorem update_touching_stays_playing :
    (run init touchRun).map (fun s => (s.gameState, s.bird, s.pipes)) =
      some (GameState.playing, touching.bird, touching.pipes) ∧
    (run init touchRun).map (fun s => (s.frame, s.score)) = some (153, 0) ∧
    ((run init touchRun).bind (fun s => update s 0)).map
        (fun s => (s.gameState, s.bird, s.pipes)) =
      some (GameState.playing, some { x := 80, y := 300, vy := -1 / 2, size := 80 },
        [{ x := 15, gapY := 276 }, { x := 475 / 2, gapY := 60 }]) ∧
    ((15 : ℚ) ≤ 80 ∧ (80 : ℚ) ≤ 15 + PIPE_WIDTH ∧ (0 : ℚ) ≤ 276 ∧ (276 : ℚ) ≤ 276 ∧
      ((80 : ℚ) - 80) * (80 - 80) + (300 - 276) * (300 - 276) ≤ 24 * 24) := by
  refine ⟨by decide!, by decide!, by decide!, by norm_num [PIPE_WIDTH]⟩

end FlappySnick
